import Mathlib

/-!
# Verification of the zinc-flotation performance engine

Shallow embedding of `flotation_app.py`: the generic piecewise-linear
interpolation over lookup tables, the four response-curve tables, the
performance model `calculate_performance`, and the target-zone calculator
`calculate_targets`.

The interpolation engine and the lookup tables are stated over an arbitrary
linear ordered field (the Python code is exact rational arithmetic on the
table values); the performance model is stated over `ℝ` because the carbon
term uses `exp`.
-/

/-- Metric names carried by the collector / air-rate / frother curves
(the Python dicts `{"recovery": ..., "grade": ...}`). -/
inductive RGMetric
  | recovery
  | grade
  deriving DecidableEq, Fintype

/-- Metric names carried by the pH curve
(the Python dict `{"recovery_multiplier": ..., "grade_bonus": ...}`). -/
inductive PhMetric
  | recovery_multiplier
  | grade_bonus
  deriving DecidableEq, Fintype

/-- An effect vector `{"recovery": r, "grade": g}`. -/
def rg {α : Type*} (r g : α) : RGMetric → α
  | .recovery => r
  | .grade => g

/-- An effect vector `{"recovery_multiplier": m, "grade_bonus": b}`. -/
def phv {α : Type*} (m b : α) : PhMetric → α
  | .recovery_multiplier => m
  | .grade_bonus => b

/-- `COLLECTOR_LOOKUP`, entries listed in the ascending key order that
`sorted(lookup_table.keys())` produces. -/
def COLLECTOR_LOOKUP (α : Type*) [LinearOrderedField α] : List (α × (RGMetric → α)) :=
  [(200, rg 15.0 55.0), (400, rg 46.0 52.5), (650, rg 70.0 50.0),
   (900, rg 85.0 47.5), (1100, rg 93.0 45.0), (1500, rg 97.2 40.0)]

/-- `AIR_RATE_LOOKUP`. -/
def AIR_RATE_LOOKUP (α : Type*) [LinearOrderedField α] : List (α × (RGMetric → α)) :=
  [(500, rg 30.0 58.0), (1500, rg 92.0 22.0)]

/-- `FROTHER_LOOKUP`. -/
def FROTHER_LOOKUP (α : Type*) [LinearOrderedField α] : List (α × (RGMetric → α)) :=
  [(0, rg 60.0 47.0), (25, rg 80.0 52.0), (50, rg 86.5 54.0),
   (75, rg 80.0 50.0), (100, rg 66.0 45.0)]

/-- `PH_LOOKUP`. -/
def PH_LOOKUP (α : Type*) [LinearOrderedField α] : List (α × (PhMetric → α)) :=
  [(8.5, phv 1.0 0.0), (9.0, phv 1.0 3.9), (9.5, phv 1.0 4.5),
   (10.0, phv 0.98 5.0), (10.5, phv 0.95 5.5), (11.0, phv 0.90 7.5),
   (12.0, phv 0.40 10.5)]

/-- The `for i in range(len(keys) - 1)` loop of `interpolate_lookup`: scan
adjacent pairs, and at the first pair with `keys[i] <= value <= keys[i+1]`
return the linear interpolation
`lower_val + weight * (upper_val - lower_val)` with
`weight = (value - lower_key) / (upper_key - lower_key)`.
The `[]` and `[e]` cases are unreachable under the guards of
`interpolate_lookup` (in Python the loop would fall through with
`lower_key` unbound). -/
def interpSeg {α : Type*} [LinearOrderedField α] {μ : Type*} (v : α) :
    List (α × (μ → α)) → μ → α
  | [] => fun _ => 0
  | [e] => e.2
  | e1 :: e2 :: rest =>
    if e1.1 ≤ v ∧ v ≤ e2.1 then
      fun m => e1.2 m + (v - e1.1) / (e2.1 - e1.1) * (e2.2 m - e1.2 m)
    else interpSeg v (e2 :: rest)

/-- `interpolate_lookup(value, lookup_table)`: flat extrapolation below the
first key and above the last key, linear interpolation in between.  The
table is the association list of (key, EffectVector) pairs in ascending key
order (the Python function sorts the dict keys itself). -/
def interpolate_lookup {α : Type*} [LinearOrderedField α] {μ : Type*}
    (v : α) (tbl : List (α × (μ → α))) : μ → α :=
  match tbl with
  | [] => fun _ => 0
  | e0 :: rest =>
    if v ≤ e0.1 then e0.2
    else if ((e0 :: rest).getLast (List.cons_ne_nil e0 rest)).1 ≤ v then
      ((e0 :: rest).getLast (List.cons_ne_nil e0 rest)).2
    else interpSeg v (e0 :: rest)

/-! ## The performance model (`calculate_performance`) over `ℝ` -/

/-- The four fixed recovery weights of the `base_recovery` sum
(`* 0.40`, `* 0.25`, `* 0.15`, `88.0 * 0.25`). -/
noncomputable def W_COLLECTOR : ℝ := 0.40

/-- Weight of the air-rate-curve recovery in `base_recovery`. -/
noncomputable def W_AIR : ℝ := 0.25

/-- Weight of the frother-curve recovery in `base_recovery`. -/
noncomputable def W_FROTHER : ℝ := 0.15

/-- Weight of the constant `88.0` baseline term in `base_recovery`. -/
noncomputable def W_BASELINE : ℝ := 0.25

/-- `grade_recovery_factor = 0.7 + ((zn_feed_grade - 2.0) / (15.0 - 2.0)) * 0.4`. -/
noncomputable def grade_recovery_factor (zn_feed_grade : ℝ) : ℝ :=
  0.7 + ((zn_feed_grade - 2.0) / (15.0 - 2.0)) * 0.4

/-- `base_recovery`: weighted combination of the curve recoveries and the
constant `88.0` baseline, times the feed grade factor. -/
noncomputable def base_recovery (collector air_rate frother zn_feed_grade : ℝ) : ℝ :=
  (interpolate_lookup collector (COLLECTOR_LOOKUP ℝ) RGMetric.recovery * W_COLLECTOR +
   interpolate_lookup air_rate (AIR_RATE_LOOKUP ℝ) RGMetric.recovery * W_AIR +
   interpolate_lookup frother (FROTHER_LOOKUP ℝ) RGMetric.recovery * W_FROTHER +
   88.0 * W_BASELINE) * grade_recovery_factor zn_feed_grade

/-- Recovery before the final clamp: pH multiplier applied to
`base_recovery`, then the luproset penalty `- luproset * 0.015`. -/
noncomputable def recovery_pre (collector air_rate frother ph luproset zn_feed_grade : ℝ) : ℝ :=
  base_recovery collector air_rate frother zn_feed_grade *
    interpolate_lookup ph (PH_LOOKUP ℝ) PhMetric.recovery_multiplier -
  luproset * 0.015

/-- `base_grade`: weighted combination of the curve grades and the constant
`50.0` baseline. -/
noncomputable def base_grade (collector air_rate frother : ℝ) : ℝ :=
  interpolate_lookup collector (COLLECTOR_LOOKUP ℝ) RGMetric.grade * 0.45 +
  interpolate_lookup air_rate (AIR_RATE_LOOKUP ℝ) RGMetric.grade * 0.30 +
  interpolate_lookup frother (FROTHER_LOOKUP ℝ) RGMetric.grade * 0.15 +
  50.0 * 0.10

/-- Grade before the final clamp:
`base_grade + ph grade_bonus - mn_grade*3 + (zn_feed_grade - 8.0) * 0.3`. -/
noncomputable def grade_pre (collector air_rate frother ph mn_grade zn_feed_grade : ℝ) : ℝ :=
  base_grade collector air_rate frother +
    interpolate_lookup ph (PH_LOOKUP ℝ) PhMetric.grade_bonus -
  mn_grade * 3 + (zn_feed_grade - 8.0) * 0.3

/-- Carbon before the final clamp: `carbon = 2.0 * np.exp(-luproset * 0.02)`. -/
noncomputable def carbon_pre (luproset : ℝ) : ℝ :=
  2.0 * Real.exp (-luproset * 0.02)

/-- `calculate_performance`: the (recovery, grade, carbon) triple, each
component clamped independently as the last step
(`max(0, min(100, recovery))`, `max(20, min(65, grade))`,
`max(0.5, carbon)`). -/
noncomputable def calculate_performance
    (collector air_rate frother ph luproset mn_grade zn_feed_grade : ℝ) : ℝ × ℝ × ℝ :=
  (max 0 (min 100 (recovery_pre collector air_rate frother ph luproset zn_feed_grade)),
   max 20 (min 65 (grade_pre collector air_rate frother ph mn_grade zn_feed_grade)),
   max 0.5 (carbon_pre luproset))

/-! ## The target-zone calculator (`calculate_targets`) -/

/-- `best_possible_grade = min(65, 60.0 - (mn_grade * 3))`. -/
noncomputable def best_possible_grade (mn_grade : ℝ) : ℝ :=
  min 65 (60.0 - mn_grade * 3)

/-- `calculate_targets(mn_grade)` returns `(target_recovery, target_grade)`
with `target_grade = best_possible_grade * 0.80` and
`target_recovery = 76.0`. -/
noncomputable def calculate_targets (mn_grade : ℝ) : ℝ × ℝ :=
  (76.0, best_possible_grade mn_grade * 0.80)

/-! ## Sorted-table helper lemmas -/

section InterpLemmas

variable {α : Type*} [LinearOrderedField α] {μ : Type*}

lemma sorted_head_lt (e : α × (μ → α)) (l : List (α × (μ → α)))
    (hs : List.Sorted (· < ·) ((e :: l).map Prod.fst))
    (p : α × (μ → α)) (hp : p ∈ l) : e.1 < p.1 := by
  rw [List.map_cons, List.sorted_cons] at hs
  exact hs.1 p.1 (List.mem_map_of_mem Prod.fst hp)

lemma sorted_tail (e : α × (μ → α)) (l : List (α × (μ → α)))
    (hs : List.Sorted (· < ·) ((e :: l).map Prod.fst)) :
    List.Sorted (· < ·) (l.map Prod.fst) := by
  rw [List.map_cons, List.sorted_cons] at hs
  exact hs.2

lemma key_inj : ∀ (tbl : List (α × (μ → α))),
    List.Sorted (· < ·) (tbl.map Prod.fst) →
    ∀ p ∈ tbl, ∀ q ∈ tbl, p.1 = q.1 → p = q := by
  intro tbl
  induction tbl with
  | nil => intro _ p hp; exact absurd hp (List.not_mem_nil p)
  | cons e l ih =>
    intro hs p hp q hq hpq
    rcases List.mem_cons.mp hp with hpe | hpl
    · rcases List.mem_cons.mp hq with hqe | hql
      · rw [hpe, hqe]
      · have := sorted_head_lt e l hs q hql
        rw [hpe] at hpq
        exact absurd hpq (ne_of_lt this)
    · rcases List.mem_cons.mp hq with hqe | hql
      · have := sorted_head_lt e l hs p hpl
        rw [hqe] at hpq
        exact absurd hpq.symm (ne_of_lt this)
      · exact ih (sorted_tail e l hs) p hpl q hql hpq

lemma key_le_getLast : ∀ (l : List (α × (μ → α))) (e : α × (μ → α)),
    List.Sorted (· < ·) ((e :: l).map Prod.fst) →
    ∀ p ∈ e :: l, p.1 ≤ ((e :: l).getLast (List.cons_ne_nil e l)).1 := by
  intro l
  induction l with
  | nil =>
    intro e _ p hp
    rcases List.mem_cons.mp hp with hpe | hpl
    · rw [hpe]; exact le_refl _
    · exact absurd hpl (List.not_mem_nil p)
  | cons e2 l' ih =>
    intro e hs p hp
    rw [List.getLast_cons (List.cons_ne_nil e2 l')]
    rcases List.mem_cons.mp hp with hpe | hpl
    · rw [hpe]
      exact le_of_lt (sorted_head_lt e (e2 :: l') hs _
        (List.getLast_mem (List.cons_ne_nil e2 l')))
    · exact ih e2 (sorted_tail e (e2 :: l') hs) p hpl

/-- A convex combination `a + w * (b - a)` with `0 ≤ w ≤ 1` lies between
`a` and `b`. -/
lemma convex_between (a b w : α) (h0 : 0 ≤ w) (h1 : w ≤ 1) :
    a + w * (b - a) ≤ max a b ∧ min a b ≤ a + w * (b - a) := by
  rcases le_total a b with h | h
  · rw [max_eq_right h, min_eq_left h]
    constructor <;> nlinarith
  · rw [max_eq_left h, min_eq_right h]
    constructor <;> nlinarith

lemma interpSeg_bounds (v : α) :
    ∀ (rest : List (α × (μ → α))) (e1 : α × (μ → α)),
      List.Sorted (· < ·) ((e1 :: rest).map Prod.fst) →
      e1.1 ≤ v → v ≤ ((e1 :: rest).getLast (List.cons_ne_nil e1 rest)).1 →
      ∀ m, (∃ p ∈ e1 :: rest, interpSeg v (e1 :: rest) m ≤ p.2 m) ∧
           (∃ q ∈ e1 :: rest, q.2 m ≤ interpSeg v (e1 :: rest) m) := by
  intro rest
  induction rest with
  | nil =>
    intro e1 _ h1 h2 m
    simp only [List.getLast_singleton] at h2
    simp only [interpSeg]
    exact ⟨⟨e1, List.mem_cons_self e1 [], le_refl _⟩,
           ⟨e1, List.mem_cons_self e1 [], le_refl _⟩⟩
  | cons e2 rest' ih =>
    intro e1 hs h1 h2 m
    have h12 : e1.1 < e2.1 :=
      sorted_head_lt e1 (e2 :: rest') hs e2 (List.mem_cons_self e2 rest')
    by_cases hc : e1.1 ≤ v ∧ v ≤ e2.1
    · rw [interpSeg, if_pos hc]
      have hw0 : 0 ≤ (v - e1.1) / (e2.1 - e1.1) :=
        div_nonneg (sub_nonneg.mpr hc.1) (le_of_lt (sub_pos.mpr h12))
      have hw1 : (v - e1.1) / (e2.1 - e1.1) ≤ 1 := by
        rw [div_le_one (sub_pos.mpr h12)]
        exact sub_le_sub_right hc.2 e1.1
      have hcv := convex_between (e1.2 m) (e2.2 m) _ hw0 hw1
      constructor
      · rcases le_total (e1.2 m) (e2.2 m) with h | h
        · exact ⟨e2, List.mem_cons_of_mem e1 (List.mem_cons_self e2 rest'),
            by rw [max_eq_right h] at hcv; exact hcv.1⟩
        · exact ⟨e1, List.mem_cons_self e1 _,
            by rw [max_eq_left h] at hcv; exact hcv.1⟩
      · rcases le_total (e1.2 m) (e2.2 m) with h | h
        · exact ⟨e1, List.mem_cons_self e1 _,
            by rw [min_eq_left h] at hcv; exact hcv.2⟩
        · exact ⟨e2, List.mem_cons_of_mem e1 (List.mem_cons_self e2 rest'),
            by rw [min_eq_right h] at hcv; exact hcv.2⟩
    · rw [interpSeg, if_neg hc]
      have hv2 : e2.1 < v := by
        rcases not_and_or.mp hc with h | h
        · exact absurd h1 h
        · exact lt_of_not_le h
      rw [List.getLast_cons (List.cons_ne_nil e2 rest')] at h2
      have := ih e2 (sorted_tail e1 (e2 :: rest') hs) (le_of_lt hv2) h2 m
      refine ⟨?_, ?_⟩
      · obtain ⟨p, hp, hle⟩ := this.1
        exact ⟨p, List.mem_cons_of_mem e1 hp, hle⟩
      · obtain ⟨q, hq, hle⟩ := this.2
        exact ⟨q, List.mem_cons_of_mem e1 hq, hle⟩

lemma interpSeg_exact :
    ∀ (rest : List (α × (μ → α))) (e1 : α × (μ → α)),
      List.Sorted (· < ·) ((e1 :: rest).map Prod.fst) →
      ∀ p ∈ rest, interpSeg p.1 (e1 :: rest) = p.2 := by
  intro rest
  induction rest with
  | nil =>
    intro e1 _ p hp
    exact absurd hp (List.not_mem_nil p)
  | cons e2 rest' ih =>
    intro e1 hs p hp
    have h12 : e1.1 < e2.1 :=
      sorted_head_lt e1 (e2 :: rest') hs e2 (List.mem_cons_self e2 rest')
    rcases List.mem_cons.mp hp with hpe | hpl
    · rw [hpe, interpSeg, if_pos ⟨le_of_lt h12, le_refl _⟩]
      funext m
      rw [div_self (ne_of_gt (sub_pos.mpr h12))]
      ring
    · have h2p : e2.1 < p.1 :=
        sorted_head_lt e2 rest' (sorted_tail e1 (e2 :: rest') hs) p hpl
      rw [interpSeg, if_neg (fun h => absurd h.2 (not_le.mpr h2p))]
      exact ih e2 (sorted_tail e1 (e2 :: rest') hs) p hpl

end InterpLemmas

/-! ## Interpolation theorems -/

/-- C5: for every lookup table (with a shared metric-name set, strictly
increasing keys) and every query value `v`, each metric of
`interpolate_lookup v tbl` is bounded below and above by that metric at
some table entry (hence lies between the min and the max of the metric
across all entries); and for `v` at or below the smallest key
(respectively at or above the largest key) the result is exactly the first
(respectively last) entry's EffectVector. -/
theorem interpolate_lookup_bounded {α : Type*} [LinearOrderedField α] {μ : Type*}
    (tbl : List (α × (μ → α))) (hne : tbl ≠ [])
    (hs : List.Sorted (· < ·) (tbl.map Prod.fst)) (v : α) :
    (∀ m, (∃ p ∈ tbl, interpolate_lookup v tbl m ≤ p.2 m) ∧
          (∃ q ∈ tbl, q.2 m ≤ interpolate_lookup v tbl m)) ∧
    (v ≤ (tbl.head hne).1 → interpolate_lookup v tbl = (tbl.head hne).2) ∧
    ((tbl.getLast hne).1 ≤ v → interpolate_lookup v tbl = (tbl.getLast hne).2) := by
  match tbl with
  | [] => exact absurd rfl hne
  | e0 :: rest =>
    by_cases h1 : v ≤ e0.1
    · have hres : interpolate_lookup v (e0 :: rest) = e0.2 := by
        rw [interpolate_lookup, if_pos h1]
      refine ⟨?_, ?_, ?_⟩
      · intro m
        rw [hres]
        exact ⟨⟨e0, List.mem_cons_self e0 rest, le_refl _⟩,
               ⟨e0, List.mem_cons_self e0 rest, le_refl _⟩⟩
      · intro _; exact hres
      · intro hL
        have hle : e0.1 ≤ ((e0 :: rest).getLast (List.cons_ne_nil e0 rest)).1 :=
          key_le_getLast rest e0 hs e0 (List.mem_cons_self e0 rest)
        have hkey : e0.1 = ((e0 :: rest).getLast (List.cons_ne_nil e0 rest)).1 :=
          le_antisymm hle (le_trans hL h1)
        have : e0 = (e0 :: rest).getLast (List.cons_ne_nil e0 rest) :=
          key_inj (e0 :: rest) hs e0 (List.mem_cons_self e0 rest) _
            (List.getLast_mem (List.cons_ne_nil e0 rest)) hkey
        rw [hres]
        exact congrArg Prod.snd this
    · by_cases h2 : ((e0 :: rest).getLast (List.cons_ne_nil e0 rest)).1 ≤ v
      · have hres : interpolate_lookup v (e0 :: rest) =
            ((e0 :: rest).getLast (List.cons_ne_nil e0 rest)).2 := by
          rw [interpolate_lookup, if_neg h1, if_pos h2]
        refine ⟨?_, ?_, ?_⟩
        · intro m
          rw [hres]
          exact ⟨⟨_, List.getLast_mem (List.cons_ne_nil e0 rest), le_refl _⟩,
                 ⟨_, List.getLast_mem (List.cons_ne_nil e0 rest), le_refl _⟩⟩
        · intro hv; exact absurd hv h1
        · intro _; exact hres
      · have hres : interpolate_lookup v (e0 :: rest) = interpSeg v (e0 :: rest) := by
          rw [interpolate_lookup, if_neg h1, if_neg h2]
        refine ⟨?_, ?_, ?_⟩
        · intro m
          rw [hres]
          exact interpSeg_bounds v rest e0 hs (le_of_not_le h1)
            (le_of_lt (lt_of_not_le h2)) m
        · intro hv; exact absurd hv h1
        · intro hL; exact absurd hL h2

/-- C6: querying `interpolate_lookup` exactly at one of the table's keys
returns that key's EffectVector unchanged (in exact field arithmetic),
whether the key is a boundary key (hit by the extrapolation branches) or an
interior key (hit by the interpolation formula at weight 1). -/
theorem interpolate_lookup_exact_at_key {α : Type*} [LinearOrderedField α] {μ : Type*}
    (tbl : List (α × (μ → α))) (hs : List.Sorted (· < ·) (tbl.map Prod.fst))
    (p : α × (μ → α)) (hp : p ∈ tbl) :
    interpolate_lookup p.1 tbl = p.2 := by
  match tbl with
  | [] => exact absurd hp (List.not_mem_nil p)
  | e0 :: rest =>
    by_cases h1 : p.1 ≤ e0.1
    · have hpe : p = e0 := by
        rcases List.mem_cons.mp hp with hpe | hpl
        · exact hpe
        · exact absurd h1 (not_le.mpr (sorted_head_lt e0 rest hs p hpl))
      rw [interpolate_lookup, if_pos h1, hpe]
    · by_cases h2 : ((e0 :: rest).getLast (List.cons_ne_nil e0 rest)).1 ≤ p.1
      · have hkey : p.1 = ((e0 :: rest).getLast (List.cons_ne_nil e0 rest)).1 :=
          le_antisymm (key_le_getLast rest e0 hs p hp) h2
        have hpl : p = (e0 :: rest).getLast (List.cons_ne_nil e0 rest) :=
          key_inj (e0 :: rest) hs p hp _
            (List.getLast_mem (List.cons_ne_nil e0 rest)) hkey
        rw [interpolate_lookup, if_neg h1, if_pos h2, ← hpl]
      · have hpl : p ∈ rest := by
          rcases List.mem_cons.mp hp with hpe | hpl
          · exact absurd (le_of_eq (congrArg Prod.fst hpe)) h1
          · exact hpl
        rw [interpolate_lookup, if_neg h1, if_neg h2]
        exact interpSeg_exact rest e0 hs p hpl

theorem interpolate_lookup_bounded_witness :
    COLLECTOR_LOOKUP ℚ ≠ [] ∧
    List.Sorted (· < ·) ((COLLECTOR_LOOKUP ℚ).map Prod.fst) ∧
    (∀ m, (∃ p ∈ COLLECTOR_LOOKUP ℚ,
             interpolate_lookup (500 : ℚ) (COLLECTOR_LOOKUP ℚ) m ≤ p.2 m) ∧
          (∃ q ∈ COLLECTOR_LOOKUP ℚ,
             q.2 m ≤ interpolate_lookup (500 : ℚ) (COLLECTOR_LOOKUP ℚ) m)) := by
  have hne : COLLECTOR_LOOKUP ℚ ≠ [] := by decide
  have hs : List.Sorted (· < ·) ((COLLECTOR_LOOKUP ℚ).map Prod.fst) := by decide
  exact ⟨hne, hs, (interpolate_lookup_bounded (COLLECTOR_LOOKUP ℚ) hne hs 500).1⟩

theorem interpolate_lookup_exact_at_key_witness :
    List.Sorted (· < ·) ((COLLECTOR_LOOKUP ℚ).map Prod.fst) ∧
    ((650 : ℚ), rg (70.0 : ℚ) 50.0) ∈ COLLECTOR_LOOKUP ℚ ∧
    interpolate_lookup ((650 : ℚ), rg (70.0 : ℚ) 50.0).1 (COLLECTOR_LOOKUP ℚ) =
      ((650 : ℚ), rg (70.0 : ℚ) 50.0).2 := by
  have hs : List.Sorted (· < ·) ((COLLECTOR_LOOKUP ℚ).map Prod.fst) := by decide
  have hp : ((650 : ℚ), rg (70.0 : ℚ) 50.0) ∈ COLLECTOR_LOOKUP ℚ := by
    simp [COLLECTOR_LOOKUP]
  exact ⟨hs, hp, interpolate_lookup_exact_at_key (COLLECTOR_LOOKUP ℚ) hs _ hp⟩

/-! ## Performance-model and target-zone theorems -/

/-- C1: for every input tuple of reals (out-of-range values included),
`calculate_performance` returns recovery in `[0, 100]`, grade in `[20, 65]`
and carbon `≥ 0.5`, and the result is exactly the per-output independent
clamp of the pre-clamp pipeline values, applied as the last step. -/
theorem calculate_performance_output_clamped
    (collector air_rate frother ph luproset mn_grade zn_feed_grade : ℝ) :
    0 ≤ (calculate_performance collector air_rate frother ph luproset mn_grade zn_feed_grade).1 ∧
    (calculate_performance collector air_rate frother ph luproset mn_grade zn_feed_grade).1 ≤ 100 ∧
    20 ≤ (calculate_performance collector air_rate frother ph luproset mn_grade zn_feed_grade).2.1 ∧
    (calculate_performance collector air_rate frother ph luproset mn_grade zn_feed_grade).2.1 ≤ 65 ∧
    0.5 ≤ (calculate_performance collector air_rate frother ph luproset mn_grade zn_feed_grade).2.2 ∧
    calculate_performance collector air_rate frother ph luproset mn_grade zn_feed_grade =
      (max 0 (min 100 (recovery_pre collector air_rate frother ph luproset zn_feed_grade)),
       max 20 (min 65 (grade_pre collector air_rate frother ph mn_grade zn_feed_grade)),
       max 0.5 (carbon_pre luproset)) := by
  refine ⟨le_max_left _ _, ?_, le_max_left _ _, ?_, le_max_left _ _, rfl⟩
  · exact max_le (by norm_num) (min_le_left _ _)
  · exact max_le (by norm_num) (min_le_left _ _)

/-- C2 counterexample: the four fixed weights of the base-recovery sum do
NOT sum to `1.0`. -/
theorem recovery_weights_sum_ne_one :
    ¬ (W_COLLECTOR + W_AIR + W_FROTHER + W_BASELINE = 1) := by
  rw [W_COLLECTOR, W_AIR, W_FROTHER, W_BASELINE]
  norm_num

/-- C2 (amended): the four fixed weights of the base-recovery sum
(collector, air-rate, frother curves and the constant `88.0` baseline) sum
to `1.05`, so base recovery is a weighted sum of total weight `1.05`, not a
convex combination. -/
theorem recovery_weights_sum :
    W_COLLECTOR + W_AIR + W_FROTHER + W_BASELINE = 1.05 ∧
    (∀ collector air_rate frother zn_feed_grade : ℝ,
      base_recovery collector air_rate frother zn_feed_grade =
        (interpolate_lookup collector (COLLECTOR_LOOKUP ℝ) RGMetric.recovery * W_COLLECTOR +
         interpolate_lookup air_rate (AIR_RATE_LOOKUP ℝ) RGMetric.recovery * W_AIR +
         interpolate_lookup frother (FROTHER_LOOKUP ℝ) RGMetric.recovery * W_FROTHER +
         88.0 * W_BASELINE) * grade_recovery_factor zn_feed_grade) := by
  constructor
  · rw [W_COLLECTOR, W_AIR, W_FROTHER, W_BASELINE]
    norm_num
  · intro collector air_rate frother zn_feed_grade
    rfl

/-- C3: the feed-grade recovery factor at the endpoints of the documented
feed-grade range: the code yields `1.1` at `zn_feed_grade = 15.0` (its own
comment says `1.0`) and `0.7` at `zn_feed_grade = 2.0` (the comment says
`0.6`). -/
theorem grade_recovery_factor_endpoints :
    grade_recovery_factor 15.0 = 1.1 ∧ grade_recovery_factor 2.0 = 0.7 := by
  constructor <;> (rw [grade_recovery_factor]; norm_num)

/-- C7: `calculate_targets` returns a target grade equal to 80% of the
manganese-adjusted ceiling `min(65, 60.0 - 3*mn_grade)`, always `≤ 65`,
and a constant target recovery `76.0` independent of the manganese
grade. -/
theorem calculate_targets_consistency (mn_grade : ℝ) :
    (calculate_targets mn_grade).2 = 0.80 * min 65 (60.0 - 3 * mn_grade) ∧
    (calculate_targets mn_grade).2 ≤ 65 ∧
    (calculate_targets mn_grade).1 = 76.0 := by
  refine ⟨?_, ?_, rfl⟩
  · show best_possible_grade mn_grade * 0.80 = _
    rw [best_possible_grade, mul_comm mn_grade 3, mul_comm]
  · show best_possible_grade mn_grade * 0.80 ≤ 65
    rw [best_possible_grade]
    nlinarith [min_le_left (65 : ℝ) (60.0 - mn_grade * 3)]

/-- C9: for every nonnegative luproset dosage, the carbon output equals
`max 0.5 (2.0 * exp(-0.02 * luproset))` and lies in `[0.5, 2.0]`: the
exponential's baseline `2.0` is an implicit upper bound even though no
upper clamp is applied. -/
theorem carbon_bounded
    (collector air_rate frother ph luproset mn_grade zn_feed_grade : ℝ)
    (h : 0 ≤ luproset) :
    (calculate_performance collector air_rate frother ph luproset mn_grade zn_feed_grade).2.2 =
      max 0.5 (2.0 * Real.exp (-luproset * 0.02)) ∧
    0.5 ≤ (calculate_performance collector air_rate frother ph luproset mn_grade zn_feed_grade).2.2 ∧
    (calculate_performance collector air_rate frother ph luproset mn_grade zn_feed_grade).2.2 ≤ 2.0 := by
  refine ⟨rfl, le_max_left _ _, ?_⟩
  show max 0.5 (carbon_pre luproset) ≤ 2.0
  apply max_le (by norm_num)
  rw [carbon_pre]
  have hexp : Real.exp (-luproset * 0.02) ≤ 1 := by
    have h1 : Real.exp (-luproset * 0.02) ≤ Real.exp 0 :=
      Real.exp_le_exp.mpr (by nlinarith)
    rwa [Real.exp_zero] at h1
  nlinarith

theorem carbon_bounded_witness :
    (0 : ℝ) ≤ 0 ∧
    ((calculate_performance 200 500 0 8.5 0 0.8 8.0).2.2 =
       max 0.5 (2.0 * Real.exp (-(0 : ℝ) * 0.02)) ∧
     0.5 ≤ (calculate_performance 200 500 0 8.5 0 0.8 8.0).2.2 ∧
     (calculate_performance 200 500 0 8.5 0 0.8 8.0).2.2 ≤ 2.0) :=
  ⟨le_refl 0, carbon_bounded 200 500 0 8.5 0 0.8 8.0 (le_refl 0)⟩

/-- C10: for every nonnegative feed manganese grade, the `65` cap inside
`best_possible_grade` never binds — the ceiling always equals
`60.0 - 3*mn_grade` — and consequently the target grade is at most `48`. -/
theorem best_possible_grade_cap_never_binds (mn_grade : ℝ) (h : 0 ≤ mn_grade) :
    best_possible_grade mn_grade = 60.0 - mn_grade * 3 ∧
    (calculate_targets mn_grade).2 ≤ 48 := by
  have hmin : best_possible_grade mn_grade = 60.0 - mn_grade * 3 := by
    rw [best_possible_grade]
    exact min_eq_right (by nlinarith)
  refine ⟨hmin, ?_⟩
  show best_possible_grade mn_grade * 0.80 ≤ 48
  rw [hmin]
  nlinarith

theorem best_possible_grade_cap_never_binds_witness :
    (0 : ℝ) ≤ 0 ∧
    (best_possible_grade 0 = 60.0 - (0 : ℝ) * 3 ∧ (calculate_targets 0).2 ≤ 48) :=
  ⟨le_refl 0, best_possible_grade_cap_never_binds 0 (le_refl 0)⟩

/-- C4 counterexample: with all other inputs fixed, luproset dosages
`80 < 100` (both inside `[0, 100]`) give the SAME carbon output `0.5` —
the `max(0.5, ...)` floor defeats strict monotonicity — so carbon at the
larger dosage is not strictly smaller. -/
theorem luproset_strict_decrease_counterexample :
    ¬ ((calculate_performance 200 500 0 8.5 100 0.8 8.0).2.2 <
       (calculate_performance 200 500 0 8.5 80 0.8 8.0).2.2) := by
  have h4 : (4 : ℝ) ≤ Real.exp 1.6 := by
    have h1 : (1.2 : ℝ) ≤ Real.exp 0.2 := by
      have := Real.add_one_le_exp (0.2 : ℝ)
      linarith
    have h2 : ((1.2 : ℝ)) ^ 8 ≤ (Real.exp 0.2) ^ 8 :=
      pow_le_pow_left₀ (by norm_num) h1 8
    have h3 : (Real.exp 0.2) ^ 8 = Real.exp 1.6 := by
      rw [← Real.exp_nat_mul]
      norm_num
    rw [h3] at h2
    nlinarith
  have hexp16 : Real.exp (-(1.6 : ℝ)) ≤ 1 / 4 := by
    have hmul : Real.exp (-(1.6 : ℝ)) * Real.exp 1.6 = 1 := by
      rw [← Real.exp_add]
      norm_num
    nlinarith [Real.exp_pos (-(1.6 : ℝ))]
  have hc80 : carbon_pre 80 ≤ 0.5 := by
    rw [carbon_pre]
    have harg : (-(80 : ℝ) * 0.02) = -1.6 := by norm_num
    rw [harg]
    nlinarith
  have hc100 : carbon_pre 100 ≤ 0.5 := by
    rw [carbon_pre]
    have harg : (-(100 : ℝ) * 0.02) = -2 := by norm_num
    rw [harg]
    have hle : Real.exp (-(2 : ℝ)) ≤ Real.exp (-(1.6 : ℝ)) :=
      Real.exp_le_exp.mpr (by norm_num)
    nlinarith
  show ¬ (max 0.5 (carbon_pre 100) < max 0.5 (carbon_pre 80))
  rw [max_eq_left hc100, max_eq_left hc80]
  exact lt_irrefl _

/-- C4 (amended): holding the other inputs fixed, a larger luproset dosage
never increases recovery and never increases carbon; the carbon decrease is
strict whenever the larger dosage's pre-clamp carbon is still above the
`0.5` floor (the floor makes the decrease non-strict beyond
`luproset = 50·ln 4 ≈ 69.3`). -/
theorem luproset_monotone
    (collector air_rate frother ph mn_grade zn_feed_grade d1 d2 : ℝ) (h : d1 < d2) :
    (calculate_performance collector air_rate frother ph d2 mn_grade zn_feed_grade).1 ≤
      (calculate_performance collector air_rate frother ph d1 mn_grade zn_feed_grade).1 ∧
    (calculate_performance collector air_rate frother ph d2 mn_grade zn_feed_grade).2.2 ≤
      (calculate_performance collector air_rate frother ph d1 mn_grade zn_feed_grade).2.2 ∧
    (0.5 < carbon_pre d2 →
      (calculate_performance collector air_rate frother ph d2 mn_grade zn_feed_grade).2.2 <
        (calculate_performance collector air_rate frother ph d1 mn_grade zn_feed_grade).2.2) := by
  have hcarb : carbon_pre d2 < carbon_pre d1 := by
    rw [carbon_pre, carbon_pre]
    have hlt : Real.exp (-d2 * 0.02) < Real.exp (-d1 * 0.02) :=
      Real.exp_lt_exp.mpr (by nlinarith)
    nlinarith
  have hrec : recovery_pre collector air_rate frother ph d2 zn_feed_grade ≤
      recovery_pre collector air_rate frother ph d1 zn_feed_grade := by
    rw [recovery_pre, recovery_pre]
    nlinarith
  refine ⟨?_, ?_, ?_⟩
  · exact max_le_max (le_refl 0) (min_le_min (le_refl 100) hrec)
  · exact max_le_max (le_refl _) (le_of_lt hcarb)
  · intro hfloor
    show max 0.5 (carbon_pre d2) < max 0.5 (carbon_pre d1)
    rw [max_eq_right (le_of_lt hfloor)]
    exact lt_of_lt_of_le hcarb (le_max_right _ _)

theorem luproset_monotone_witness :
    (0 : ℝ) < 10 ∧
    ((calculate_performance 200 500 0 8.5 10 0.8 8.0).1 ≤
       (calculate_performance 200 500 0 8.5 0 0.8 8.0).1 ∧
     (calculate_performance 200 500 0 8.5 10 0.8 8.0).2.2 ≤
       (calculate_performance 200 500 0 8.5 0 0.8 8.0).2.2 ∧
     (0.5 < carbon_pre 10 →
       (calculate_performance 200 500 0 8.5 10 0.8 8.0).2.2 <
         (calculate_performance 200 500 0 8.5 0 0.8 8.0).2.2)) :=
  ⟨by norm_num, luproset_monotone 200 500 0 8.5 0.8 8.0 0 10 (by norm_num)⟩

/-- C8: the manganese coefficient `3` of `calculate_targets`' grade ceiling
equals the manganese grade-penalty coefficient of `calculate_performance`:
when the `65` cap of the ceiling and the `[20, 65]` grade clamps do not
bind, moving the feed manganese grade from `m1` to `m2` changes the grade
ceiling and the performance-model grade by the same amount
`-(3 * (m2 - m1))`. -/
theorem mn_coefficient_consistency
    (m1 m2 collector air_rate frother ph luproset zn_feed_grade : ℝ)
    (h1 : 60.0 - m1 * 3 ≤ 65) (h2 : 60.0 - m2 * 3 ≤ 65)
    (hg1l : 20 ≤ grade_pre collector air_rate frother ph m1 zn_feed_grade)
    (hg1u : grade_pre collector air_rate frother ph m1 zn_feed_grade ≤ 65)
    (hg2l : 20 ≤ grade_pre collector air_rate frother ph m2 zn_feed_grade)
    (hg2u : grade_pre collector air_rate frother ph m2 zn_feed_grade ≤ 65) :
    best_possible_grade m2 - best_possible_grade m1 = -(3 * (m2 - m1)) ∧
    (calculate_performance collector air_rate frother ph luproset m2 zn_feed_grade).2.1 -
      (calculate_performance collector air_rate frother ph luproset m1 zn_feed_grade).2.1 =
      -(3 * (m2 - m1)) := by
  constructor
  · rw [best_possible_grade, best_possible_grade, min_eq_right h2, min_eq_right h1]
    ring
  · have e1 : (calculate_performance collector air_rate frother ph luproset m1 zn_feed_grade).2.1 =
        grade_pre collector air_rate frother ph m1 zn_feed_grade := by
      show max 20 (min 65 (grade_pre collector air_rate frother ph m1 zn_feed_grade)) = _
      rw [min_eq_right hg1u, max_eq_right hg1l]
    have e2 : (calculate_performance collector air_rate frother ph luproset m2 zn_feed_grade).2.1 =
        grade_pre collector air_rate frother ph m2 zn_feed_grade := by
      show max 20 (min 65 (grade_pre collector air_rate frother ph m2 zn_feed_grade)) = _
      rw [min_eq_right hg2u, max_eq_right hg2l]
    rw [e1, e2, grade_pre, grade_pre]
    ring

theorem mn_coefficient_consistency_witness :
    ((60.0 : ℝ) - 0.5 * 3 ≤ 65) ∧ ((60.0 : ℝ) - 1.0 * 3 ≤ 65) ∧
    (20 ≤ grade_pre 200 500 0 8.5 0.5 8.0) ∧ (grade_pre 200 500 0 8.5 0.5 8.0 ≤ 65) ∧
    (20 ≤ grade_pre 200 500 0 8.5 1.0 8.0) ∧ (grade_pre 200 500 0 8.5 1.0 8.0 ≤ 65) ∧
    (best_possible_grade 1.0 - best_possible_grade 0.5 = -(3 * ((1.0 : ℝ) - 0.5)) ∧
     (calculate_performance 200 500 0 8.5 0 1.0 8.0).2.1 -
       (calculate_performance 200 500 0 8.5 0 0.5 8.0).2.1 = -(3 * ((1.0 : ℝ) - 0.5))) := by
  have h1 : (60.0 : ℝ) - 0.5 * 3 ≤ 65 := by norm_num
  have h2 : (60.0 : ℝ) - 1.0 * 3 ≤ 65 := by norm_num
  have hg1l : (20 : ℝ) ≤ grade_pre 200 500 0 8.5 0.5 8.0 := by
    norm_num [grade_pre, base_grade, interpolate_lookup, COLLECTOR_LOOKUP,
      AIR_RATE_LOOKUP, FROTHER_LOOKUP, PH_LOOKUP, rg, phv]
  have hg1u : grade_pre 200 500 0 8.5 0.5 8.0 ≤ 65 := by
    norm_num [grade_pre, base_grade, interpolate_lookup, COLLECTOR_LOOKUP,
      AIR_RATE_LOOKUP, FROTHER_LOOKUP, PH_LOOKUP, rg, phv]
  have hg2l : (20 : ℝ) ≤ grade_pre 200 500 0 8.5 1.0 8.0 := by
    norm_num [grade_pre, base_grade, interpolate_lookup, COLLECTOR_LOOKUP,
      AIR_RATE_LOOKUP, FROTHER_LOOKUP, PH_LOOKUP, rg, phv]
  have hg2u : grade_pre 200 500 0 8.5 1.0 8.0 ≤ 65 := by
    norm_num [grade_pre, base_grade, interpolate_lookup, COLLECTOR_LOOKUP,
      AIR_RATE_LOOKUP, FROTHER_LOOKUP, PH_LOOKUP, rg, phv]
  exact ⟨h1, h2, hg1l, hg1u, hg2l, hg2u,
    mn_coefficient_consistency 0.5 1.0 200 500 0 8.5 0 8.0 h1 h2 hg1l hg1u hg2l hg2u⟩
